import Mathlib

/-!
Shallow embedding of the SeamlessRouter caching / predictive-prefetch engine.

The definitions below are translated from the TypeScript sources:
  src/core/config.ts                       (configuration record and updateConfig)
  src/core/CacheModule (CacheManager)      (bounded content store)
  src/core/Prefetch/PrefetchManager.ts     (priority queue + concurrency-limited scheduler)
  src/core/Prefetch/IntelligentPrefetch.ts (navigation-pattern predictor)

Modelling conventions:
  * JavaScript `Map` becomes an insertion-ordered association list
    (`Map.set` of an existing key keeps the original position, `Map.delete`
    removes the entry, iteration follows list order — as the ES spec requires).
  * `Set<string>` becomes a duplicate-free `List String` in insertion order.
  * `Date.now()` becomes an explicit `now : Nat` argument.  All clock reads
    performed inside one synchronous run of a method are modelled as the same
    instant (consecutive `Date.now()` calls in one synchronous block routinely
    return the same millisecond, so this instantiates an admissible execution).
  * Numbers that the source only adds/subtracts/compares are `Nat` or `Int`
    (`totalSize` is `Int` since the source decrements a JS number); scores that
    the source computes with fractional arithmetic are `Rat`.
  * Asynchronous control flow is cut at its suspension points: each maximal
    synchronous region of the source becomes one state-transition function,
    and an execution is a list of such atomic events.
  * Strings are assumed ASCII for the byte-size accounting
    (`Blob.size`, `JSON.stringify(...).length`), which is exact for the
    path-like keys and header values the engine handles.
-/

namespace SeamlessRouter

/-! ## Configuration (src/core/config.ts)

Only the `prefetch` and `cache` sections are modelled; the `offline`,
`animations` and `general` sections are not referenced by any operation
verified here. -/

/-- The `prefetch` section of `RouterConfig` (src/core/config.ts). -/
structure PrefetchConfig where
  enabled : Bool
  mobileThreshold : Nat
  desktopPrefetchAll : Bool
  mobilePrefetchLimit : Nat
  navigationExtraPages : Nat
  hoverDelay : Nat
  touchDelay : Nat
  deriving DecidableEq, Repr

/-- The `cache` section of `RouterConfig` (src/core/config.ts). -/
structure CacheConfig where
  enabled : Bool
  maxSizeMB : Nat
  maxEntries : Nat
  alwaysCache : List String
  checkLastModified : Bool
  ttlHours : Nat
  deriving DecidableEq, Repr

/-- Embeds `RouterConfig` (src/core/config.ts), restricted to the sections the
caching/prefetch engine reads. -/
structure RouterConfig where
  prefetch : PrefetchConfig
  cache : CacheConfig
  deriving DecidableEq, Repr

/-- Embeds `defaultConfig` from src/core/config.ts (the modelled sections). -/
def defaultConfig : RouterConfig :=
  { prefetch :=
      { enabled := true
        mobileThreshold := 768
        desktopPrefetchAll := true
        mobilePrefetchLimit := 3
        navigationExtraPages := 2
        hoverDelay := 300
        touchDelay := 100 }
    cache :=
      { enabled := true
        maxSizeMB := 30
        maxEntries := 100
        alwaysCache := [("/"), ("/index.html"), ("/contacts.html"), ("/about.html")]
        checkLastModified := true
        ttlHours := 24 } }

/-- Embeds `Partial<RouterConfig>` as used by `updateConfig`: TypeScript `Partial`
is shallow, so each section is either absent or supplied whole. -/
structure RouterConfigUpdate where
  prefetch : Option PrefetchConfig
  cache : Option CacheConfig
  deriving DecidableEq, Repr

/-- Embeds `updateConfig` (src/core/config.ts, lines 117-127): spread-merge of the
supplied sections over the current configuration.  The source performs no
validation of any field value and has no throw statement, so the embedding
is a total function. -/
def updateConfig (newConfig : RouterConfigUpdate) (current : RouterConfig) : RouterConfig :=
  { prefetch := newConfig.prefetch.getD current.prefetch
    cache := newConfig.cache.getD current.cache }

/-! ## CacheManager (src/core/CacheModule, `part_001` lines 1635-2018) -/

/-- Embeds `CacheEntry` (part_001).  The unused optional `hash` field is omitted. -/
structure CacheEntry where
  url : String
  html : String
  headers : List (String × String)
  timestamp : Nat
  size : Int
  lastModified : Option String
  etag : Option String
  deriving DecidableEq, Repr

/-- Embeds `CacheStats` (part_001).  `hitRate` is a JS float computed as
`hits / (hits + misses)`; it is modelled exactly as a rational. -/
structure CacheStats where
  totalEntries : Nat
  totalSize : Int
  hits : Nat
  misses : Nat
  hitRate : Rat
  deriving DecidableEq, Repr

/-- The in-memory state of a `CacheManager`: the `cache` map in insertion
order plus the aggregate statistics. -/
structure CacheState where
  cache : List (String × CacheEntry)
  stats : CacheStats
  deriving DecidableEq, Repr

/-- A freshly constructed `CacheManager` with no persisted state: the
constructor runs `checkSupport` and `loadFromStorage`; with nothing stored
the cache map and the statistics start empty/zero. -/
def initCacheState : CacheState :=
  { cache := []
    stats := { totalEntries := 0, totalSize := 0, hits := 0, misses := 0, hitRate := 0 } }

/-- Models `Map.get` and `Record` indexing: first binding of the key, if any. -/
def jsMapGet (key : String) (m : List (String × α)) : Option α :=
  (m.find? (fun p => p.1 == key)).map (fun p => p.2)

/-- Models `Map.set`: replace in place when the key is present (keeping its
position, as the ES `Map` does), otherwise append. -/
def jsMapSet (key : String) (v : α) : List (String × α) → List (String × α)
  | [] => [(key, v)]
  | p :: rest => if p.1 == key then (key, v) :: rest else p :: jsMapSet key v rest

/-- Models `Map.delete`: remove the binding of the key, if present. -/
def jsMapDelete (key : String) (m : List (String × α)) : List (String × α) :=
  m.eraseP (fun p => p.1 == key)

/-- JavaScript truthiness of an optional string: `undefined` and the empty
string are falsy. -/
def jsTruthy : Option String → Bool
  | none => false
  | some s => s ≠ ""

/-- Models `new Blob([html]).size`: the UTF-8 byte length of the string. -/
def blobSize (s : String) : Nat :=
  s.utf8ByteSize

/-- Length of `JSON.stringify(headers)` for an object of ASCII string
fields without characters that JSON escapes: two braces, one
`"key":"value"` of length `|key| + |value| + 5` per field, and a comma
between consecutive fields. -/
def jsonStringifyLength (headers : List (String × String)) : Nat :=
  2 + (headers.map (fun p => p.1.length + p.2.length + 5)).sum + (headers.length - 1)

/-- Embeds `CacheManager.calculateSize` (part_001): HTML blob size, plus the
header JSON length in UTF-16 units (× 2 bytes), plus 100 bytes of
metadata. -/
def calculateSize (html : String) (headers : List (String × String)) : Int :=
  (blobSize html : Int) + (jsonStringifyLength headers : Int) * 2 + 100

/-- Embeds `CacheManager.shouldUpdateEntry` (part_001, lines 1768-1783): update
when no entry exists, or when a (truthy) supplied `last-modified` differs
from the stored one, or when a (truthy) supplied `etag` differs. -/
def shouldUpdateEntry (url : String) (lastModified etag : Option String)
    (st : CacheState) : Bool :=
  match jsMapGet url st.cache with
  | none => true
  | some existing =>
    if jsTruthy lastModified && !(existing.lastModified == lastModified) then true
    else if jsTruthy etag && !(existing.etag == etag) then true
    else false

/-- Left fold implementing the oldest-entry scan of `CacheManager.checkLimits`
in map-iteration order: the accumulator is `(oldestUrl, oldestTimestamp)`,
with `oldestTimestamp` initialised to `Date.now()`; keys in `alwaysCache`
are skipped and only an entry with a strictly smaller timestamp than the
current minimum can be selected, so the first entry attaining the minimum
wins. -/
def findOldestGo (alwaysCache : List String) :
    Option String × Nat → List (String × CacheEntry) → Option String × Nat
  | acc, [] => acc
  | (best, bestTs), (url, entry) :: rest =>
    if alwaysCache.contains url then findOldestGo alwaysCache (best, bestTs) rest
    else if entry.timestamp < bestTs then
      findOldestGo alwaysCache (some url, entry.timestamp) rest
    else findOldestGo alwaysCache (best, bestTs) rest

/-- One full oldest-entry scan of `checkLimits` at clock reading `now`. -/
def findOldestUrl (alwaysCache : List String) (now : Nat)
    (entries : List (String × CacheEntry)) : Option String :=
  (findOldestGo alwaysCache (none, now) entries).1

/-- The eviction loop of `CacheManager.checkLimits` (part_001, lines
1806-1847), with explicit fuel: each iteration either removes the selected
oldest non-pinned entry or stops; `fuel` exceeding the entry count makes
the recursion equivalent to the source's `while` loop. -/
def checkLimitsGo (cfg : RouterConfig) (now : Nat) : Nat → CacheState → CacheState
  | 0, st => st
  | fuel + 1, st =>
    let maxSizeBytes : Int := (cfg.cache.maxSizeMB : Int) * 1024 * 1024
    if (st.stats.totalSize > maxSizeBytes ∨ st.cache.length > cfg.cache.maxEntries)
        ∧ st.cache.length > 0 then
      match findOldestUrl cfg.cache.alwaysCache now st.cache with
      | some oldestUrl =>
        match jsMapGet oldestUrl st.cache with
        | some entry =>
          checkLimitsGo cfg now fuel
            { cache := jsMapDelete oldestUrl st.cache
              stats := { st.stats with
                totalSize := st.stats.totalSize - entry.size
                totalEntries := st.stats.totalEntries - 1 } }
        | none => st   -- unreachable: the scan only selects present keys
      | none => st     -- all candidates pinned or not strictly older than now
    else st

/-- Embeds `CacheManager.checkLimits` at clock reading `now`. -/
def checkLimits (cfg : RouterConfig) (now : Nat) (st : CacheState) : CacheState :=
  checkLimitsGo cfg now (st.cache.length + 1) st

/-- Embeds `CacheManager.set` (part_001, lines 1852-1905) at clock reading `now`
(used both for the new entry's `timestamp` and for the `Date.now()` reads
inside `checkLimits`, which happen in the same synchronous run).
`saveToStorage` is fire-and-forget and does not affect the in-memory
state. -/
def CacheManager.set (cfg : RouterConfig) (now : Nat) (url html : String)
    (headers : List (String × String)) (st : CacheState) : Bool × CacheState :=
  if !cfg.cache.enabled then (false, st)
  else
    let lastModified := jsMapGet ("last-modified") headers
    let etag := jsMapGet ("etag") headers
    if !shouldUpdateEntry url lastModified etag st then (false, st)
    else
      let st1 :=
        match jsMapGet url st.cache with
        | some oldEntry =>
          { st with stats := { st.stats with totalSize := st.stats.totalSize - oldEntry.size } }
        | none => st
      let size := calculateSize html headers
      let entry : CacheEntry :=
        { url := url, html := html, headers := headers, timestamp := now
          size := size, lastModified := lastModified, etag := etag }
      let cache2 := jsMapSet url entry st1.cache
      let st2 : CacheState :=
        { cache := cache2
          stats := { st1.stats with
            totalSize := st1.stats.totalSize + size
            totalEntries := cache2.length } }
      (true, checkLimits cfg now st2)

/-- Embeds `updateHitRate` (part_001): `hitRate = total > 0 ? hits / total : 0`. -/
def updateHitRate (stats : CacheStats) : CacheStats :=
  let total := stats.hits + stats.misses
  { stats with hitRate := if total > 0 then (stats.hits : Rat) / (total : Rat) else 0 }

/-- Embeds `CacheManager.get` (part_001, lines 1910-1934).  Note the source reads
no clock here: the entry is returned whenever present, with only the
hit/miss statistics updated. -/
def CacheManager.get (cfg : RouterConfig) (st : CacheState) (url : String) :
    Option CacheEntry × CacheState :=
  if !cfg.cache.enabled then (none, st)
  else
    match jsMapGet url st.cache with
    | some entry =>
      (some entry, { st with stats := updateHitRate { st.stats with hits := st.stats.hits + 1 } })
    | none =>
      (none, { st with stats := updateHitRate { st.stats with misses := st.stats.misses + 1 } })

/-- Embeds `CacheManager.has` (part_001): pure map membership, no statistics. -/
def CacheManager.has (url : String) (st : CacheState) : Bool :=
  (jsMapGet url st.cache).isSome

/-- Embeds `CacheManager.cleanupExpired` (part_001, lines 1737-1763) at clock
reading `now`: drop every entry whose key is not in `alwaysCache` and
whose age exceeds `ttlHours` in milliseconds, subtracting the dropped
sizes; then `totalEntries` is recomputed from the map.  (`now - timestamp`
is never negative on the runs modelled, so `Nat` subtraction agrees with
the JS subtraction.) -/
def cleanupExpired (cfg : RouterConfig) (now : Nat) (st : CacheState) : CacheState :=
  let ttlMs := cfg.cache.ttlHours * 60 * 60 * 1000
  let keep := fun (p : String × CacheEntry) =>
    cfg.cache.alwaysCache.contains p.1 || !(decide (now - p.2.timestamp > ttlMs))
  let removed := st.cache.filter (fun p => !(keep p))
  let cache2 := st.cache.filter keep
  { cache := cache2
    stats := { st.stats with
      totalSize := st.stats.totalSize - (removed.map (fun p => p.2.size)).sum
      totalEntries := cache2.length } }

/-! ## PrefetchManager (src/core/Prefetch/PrefetchManager.ts)

The scheduler runs on the single JS thread; its asynchronous methods are cut
at their `await` points.  The maximal synchronous regions are:

  * the body of `prefetch` up to its `return` (including the synchronous
    prefix of the `processQueue` it invokes, which starts at most one task:
    `processQueue` awaits `executePrefetch`, whose body runs synchronously
    exactly until its `fetch`, so the loop's second iteration only runs
    after that task settles);
  * one resumed iteration of a suspended `processQueue` loop (a start of at
    most one further task);
  * the settlement of an active task: the `finally` block of
    `executePrefetch` (remove from `activeRequests`, then the synchronous
    prefix of a fresh `processQueue`);
  * `cancelPrefetch`, which is fully synchronous.
-/

/-- The three priorities of a `PrefetchRequest`. -/
inductive Priority where
  | low
  | high
  | auto
  deriving DecidableEq, Repr

/-- Embeds `PrefetchRequest` (PrefetchManager.ts).  Every request is created with
a fresh `AbortController`; the controller is omitted from the state because
no modelled transition ever reads it (see `cancelPrefetch`). -/
structure PrefetchRequest where
  url : String
  priority : Priority
  timestamp : Nat
  deriving DecidableEq, Repr

/-- The mutable state of a `PrefetchManager`. -/
structure PrefetchState where
  queue : List PrefetchRequest
  activeRequests : List String
  maxConcurrent : Nat
  isEnabled : Bool
  deriving DecidableEq, Repr

/-- The `PrefetchManager` constructor (PrefetchManager.ts, lines 24-31):
`maxConcurrent` is 2 on a mobile device and 3 otherwise, `isEnabled` comes
from the configuration; queue and active set start empty. -/
def mkPrefetchManager (cfg : RouterConfig) (isMobile : Bool) : PrefetchState :=
  { queue := []
    activeRequests := []
    maxConcurrent := if isMobile then 2 else 3
    isEnabled := cfg.prefetch.enabled }

/-- Embeds `getPriorityValue` (PrefetchManager.ts, lines 84-91).  The source's
`default` arm is unreachable for the closed union type. -/
def getPriorityValue : Priority → Nat
  | .high => 0
  | .auto => 1
  | .low => 2

/-- Embeds `addToQueue` (PrefetchManager.ts, lines 69-79): find the first queued
request whose priority value is strictly below the new request's value and
splice the new request in before it; if none, push at the end. -/
def addToQueue (queue : List PrefetchRequest) (request : PrefetchRequest) :
    List PrefetchRequest :=
  match queue.findIdx? (fun req => getPriorityValue req.priority < getPriorityValue request.priority) with
  | none => queue ++ [request]
  | some index => queue.take index ++ request :: queue.drop index

/-- Models `Set.add`: append the element unless already present. -/
def setAdd (url : String) (s : List String) : List String :=
  if s.contains url then s else s ++ [url]

/-- One iteration of the `processQueue` loop (PrefetchManager.ts, lines
96-107) up to the suspension inside `executePrefetch`: under the
concurrency guard, shift the head request off the queue and add its URL to
`activeRequests` (the synchronous prefix of `executePrefetch`, lines
112-120).  At most one task starts per synchronous region. -/
def processQueueStep (st : PrefetchState) : PrefetchState :=
  if st.activeRequests.length < st.maxConcurrent then
    match st.queue with
    | [] => st
    | request :: rest =>
      { st with queue := rest, activeRequests := setAdd request.url st.activeRequests }
  else st

/-- Embeds `PrefetchManager.prefetch` (PrefetchManager.ts, lines 36-64): no-op
returning `false` when disabled, when the URL is already an active
request, or when the URL is already cached (`cacheManager.has`); otherwise
build the request, insert it by `addToQueue`, run the synchronous prefix
of `processQueue`, and return `true`. -/
def prefetch (cacheSt : CacheState) (now : Nat) (url : String) (priority : Priority)
    (st : PrefetchState) : Bool × PrefetchState :=
  if !st.isEnabled then (false, st)
  else if st.activeRequests.contains url then (false, st)
  else if CacheManager.has url cacheSt then (false, st)
  else
    let request : PrefetchRequest := { url := url, priority := priority, timestamp := now }
    let st1 := { st with queue := addToQueue st.queue request }
    (true, processQueueStep st1)

/-- Settlement of an active task: the `finally` block of `executePrefetch`
(PrefetchManager.ts, lines 145-149) — remove the URL from
`activeRequests`, then run the synchronous prefix of `processQueue`. -/
def settlePrefetch (url : String) (st : PrefetchState) : PrefetchState :=
  processQueueStep { st with activeRequests := st.activeRequests.erase url }

/-- Embeds `cancelPrefetch` (PrefetchManager.ts, lines 155-178): if the URL is
queued, abort its controller, splice it out and return `true`; otherwise,
if the URL is active, search the queue for a request carrying the URL (its
controller would be aborted and the URL removed from `activeRequests`) —
but an active request has already been shifted off the queue, so in this
branch the search can only succeed on a duplicate; with none found the
method returns `false`. -/
def cancelPrefetch (url : String) (st : PrefetchState) : Bool × PrefetchState :=
  match st.queue.findIdx? (fun req => req.url == url) with
  | some index =>
    (true, { st with queue := st.queue.take index ++ st.queue.drop (index + 1) })
  | none =>
    if st.activeRequests.contains url then
      match st.queue.find? (fun req => req.url == url) with
      | some _ => (true, { st with activeRequests := st.activeRequests.erase url })
      | none => (false, st)
    else (false, st)

/-- The atomic scheduler events of §5's single-threaded model: an `enqueue`
call (`prefetch`, with the cache state it consults), a resumption of a
suspended `processQueue` loop, and a settlement of an active task. -/
inductive SchedEv where
  | enq : CacheState → Nat → String → Priority → SchedEv
  | pump : SchedEv
  | settle : String → SchedEv
  deriving Repr

/-- Interpretation of one scheduler event. -/
def schedStep (ev : SchedEv) (st : PrefetchState) : PrefetchState :=
  match ev with
  | .enq cacheSt now url priority => (prefetch cacheSt now url priority st).2
  | .pump => processQueueStep st
  | .settle url => settlePrefetch url st

/-- A whole scheduler execution: a fold of atomic events. -/
def runSched (evs : List SchedEv) (st : PrefetchState) : PrefetchState :=
  evs.foldl (fun s e => schedStep e s) st

/-! ## IntelligentPrefetch (src/core/Prefetch/IntelligentPrefetch.ts,
`part_001` lines 2018-2358) -/

/-- Embeds `NavigationPattern` (IntelligentPrefetch.ts).  The source's `from`/`to`
fields are renamed `fromUrl`/`toUrl` (`from` is a Lean keyword). -/
structure NavigationPattern where
  fromUrl : String
  toUrl : String
  count : Nat
  timestamp : Nat
  deriving DecidableEq, Repr

/-- Embeds `maxHistorySize` (IntelligentPrefetch.ts): fixed at 100. -/
def maxHistorySize : Nat := 100

/-- Stable insertion of `x` into `acc`: `x` goes after every element `y`
with `le y x` (so ties keep the earlier element first), before the first
element that must follow it. -/
def insertStable (le : α → α → Bool) (x : α) : List α → List α
  | [] => [x]
  | y :: ys => if le y x then y :: insertStable le x ys else x :: y :: ys

/-- Left-to-right stable insertion sort. -/
def stableSortGo (le : α → α → Bool) : List α → List α → List α
  | acc, [] => acc
  | acc, x :: xs => stableSortGo le (insertStable le x acc) xs

/-- A stable sort with respect to the total preorder induced by `le`
(`le a b` = "a may stay before b").  ECMAScript requires
`Array.prototype.sort` to be stable, and a stable sort for a total
preorder is unique, so this is extensionally the source's `sort`. -/
def stableSortBy (le : α → α → Bool) (l : List α) : List α :=
  stableSortGo le [] l

/-- In-place update of the first matching pattern (`count++`,
`timestamp = Date.now()`), returning `none` when no pattern matches. -/
def updateNav (now : Nat) (fromU toU : String) :
    List NavigationPattern → Option (List NavigationPattern)
  | [] => none
  | p :: rest =>
    if p.fromUrl == fromU && p.toUrl == toU then
      some ({ p with count := p.count + 1, timestamp := now } :: rest)
    else (updateNav now fromU toU rest).map (fun r => p :: r)

/-- Embeds `recordNavigation` (part_001, lines 2121-2150) at clock reading `now`:
bump the existing `(from, to)` pattern in place, or push a fresh one with
`count = 1`; when the push lifts the history above `maxHistorySize`, sort
the whole history by descending `timestamp` (the stable JS sort with
comparator `b.timestamp - a.timestamp`) and keep the first
`maxHistorySize` entries. -/
def recordNavigation (now : Nat) (fromU toU : String)
    (history : List NavigationPattern) : List NavigationPattern :=
  match updateNav now fromU toU history with
  | some updated => updated
  | none =>
    let pushed := history ++ [{ fromUrl := fromU, toUrl := toU, count := 1, timestamp := now }]
    if pushed.length > maxHistorySize then
      (stableSortBy (fun a b => decide (b.timestamp ≤ a.timestamp)) pushed).take maxHistorySize
    else pushed

/-- The 30-day recency window of `getLikelyNextPages`, in milliseconds. -/
def recencyWindowMs : Nat := 30 * 24 * 60 * 60 * 1000

/-- Models `Math.max` on two (non-NaN) numbers: the larger argument. -/
def jsMathMax (a b : Rat) : Rat := if a ≤ b then b else a

/-- Embeds `getLikelyNextPages` (part_001, lines 2192-2222) at clock reading
`now`: filter the patterns leaving the current URL, score each as
`count * (1 + max 0 (1 - age / recencyWindow))`, and stable-sort the
scored list by descending score (JS comparator
`b.probability - a.probability`).  Returns `(to, probability)` pairs. -/
def getLikelyNextPages (now : Nat) (currentUrl : String)
    (history : List NavigationPattern) : List (String × Rat) :=
  let patternsFromCurrent := history.filter (fun p => p.fromUrl == currentUrl)
  if patternsFromCurrent.length = 0 then []
  else
    let scored := patternsFromCurrent.map (fun p =>
      let frequencyScore : Rat := (p.count : Rat)
      let age : Rat := (now : Rat) - (p.timestamp : Rat)
      let recencyScore : Rat := jsMathMax 0 (1 - age / (recencyWindowMs : Rat))
      (p.toUrl, frequencyScore * (1 + recencyScore)))
    stableSortBy (fun a b => decide (b.2 ≤ a.2)) scored

/-! ## Concrete states used by the scenario and counterexample theorems -/

/-- Scheduler on a mobile device (`maxConcurrent = 2`) after `prefetch` of
`/p` and `/q`: both slots are taken, so further requests stay queued. -/
def schedAfterPQ : PrefetchState :=
  (prefetch initCacheState 1 ("/q") Priority.low
    (prefetch initCacheState 0 ("/p") Priority.low
      (mkPrefetchManager defaultConfig true)).2).2

/-- State `schedAfterPQ` after a further `prefetch("/k")`: `/k` sits in the queue
(both slots are busy). -/
def schedWithKQueued : PrefetchState :=
  (prefetch initCacheState 2 ("/k") Priority.low schedAfterPQ).2

/-- State `schedAfterPQ` after `prefetch("/y", low)` and then
`prefetch("/x", high)`. -/
def schedLowThenHigh : PrefetchState :=
  (prefetch initCacheState 3 ("/x") Priority.high
    (prefetch initCacheState 2 ("/y") Priority.low schedAfterPQ).2).2

/-- State `schedLowThenHigh` after the task for `/p` settles and the vacated slot
is refilled from the queue head. -/
def schedAfterPSettles : PrefetchState :=
  settlePrefetch ("/p") schedLowThenHigh

/-- Scheduler with one free slot after a single `prefetch("/x")`: the task
for `/x` starts immediately, leaving the queue empty. -/
def schedXActive : PrefetchState :=
  (prefetch initCacheState 0 ("/x") Priority.low (mkPrefetchManager defaultConfig true)).2

/-- Configuration with `maxEntries = 2` and no pinned pages. -/
def twoEntryConfig : RouterConfig :=
  { defaultConfig with
    cache := { defaultConfig.cache with maxEntries := 2, alwaysCache := [] } }

/-- Store after `set` of `/a`, `/b`, `/c` (in that order) under
`twoEntryConfig`, all three calls — and thus all `Date.now()` reads —
within the same millisecond `1000`. -/
def sameInstantStore : CacheState :=
  (CacheManager.set twoEntryConfig 1000 ("/c") ("c") []
    (CacheManager.set twoEntryConfig 1000 ("/b") ("b") []
      (CacheManager.set twoEntryConfig 1000 ("/a") ("a") [] initCacheState).2).2).2

/-- Store holding `/k` with payload `p1` and validator `etag: v1`. -/
def storeWithEtagV1 : CacheState :=
  (CacheManager.set defaultConfig 0 ("/k") ("p1") [(("etag"), ("v1"))] initCacheState).2

/-- The entry `storeWithEtagV1` holds for `/k`. -/
def entryEtagV1 : CacheEntry :=
  { url := ("/k"), html := ("p1"), headers := [(("etag"), ("v1"))], timestamp := 0
    size := 128, lastModified := none, etag := some ("v1") }

/-- Store holding one unpinned entry `/old` inserted at time 0. -/
def storeWithOldEntry : CacheState :=
  (CacheManager.set defaultConfig 0 ("/old") ("h") [] initCacheState).2

/-- The entry `storeWithOldEntry` holds for `/old`. -/
def oldEntry : CacheEntry :=
  { url := ("/old"), html := ("h"), headers := [], timestamp := 0
    size := 105, lastModified := none, etag := none }

/-- History after recording `/a → /b` three times and `/a → /c` once, all
at time 100 (equal recency). -/
def historyBBBBC : List NavigationPattern :=
  recordNavigation 100 ("/a") ("/c")
    (recordNavigation 100 ("/a") ("/b")
      (recordNavigation 100 ("/a") ("/b")
        (recordNavigation 100 ("/a") ("/b") [])))

/-- History with just `/a → /b` (recorded at time 1) and then `/a → /c`
(recorded at time 2): insertion order is `b` before `c`. -/
def historyBThenC : List NavigationPattern :=
  recordNavigation 2 ("/a") ("/c") (recordNavigation 1 ("/a") ("/b") [])

/-- The same two records preceded by one older filler edge and followed by
98 further filler edges: the 101st record exceeds `maxHistorySize`, so the
history is re-sorted by descending timestamp (dropping the oldest filler)
— which puts the `/a → /c` edge ahead of the `/a → /b` edge. -/
def historyCapTrimmed : List NavigationPattern :=
  (List.range 98).foldl
    (fun h i => recordNavigation (3 + i) (("/f")) (toString i) h)
    (recordNavigation 2 ("/a") ("/c")
      (recordNavigation 1 ("/a") ("/b")
        (recordNavigation 0 ("/x0") ("/y0") [])))

/-- The cache section of the configuration with `maxEntries := 0`. -/
def badCacheConfig : CacheConfig :=
  { defaultConfig.cache with maxEntries := 0 }

/-- The configuration produced by `updateConfig` when the caller supplies
`maxEntries = 0`: accepted without any validation. -/
def zeroEntriesConfig : RouterConfig :=
  updateConfig { prefetch := none, cache := some badCacheConfig } defaultConfig

/-! ## Scheduler invariant lemmas -/

theorem setAdd_length_le (url : String) (s : List String) :
    (setAdd url s).length ≤ s.length + 1 := by
  unfold setAdd
  split
  · exact Nat.le_succ _
  · simp

theorem processQueueStep_maxConcurrent (st : PrefetchState) :
    (processQueueStep st).maxConcurrent = st.maxConcurrent := by
  unfold processQueueStep
  split
  · split <;> rfl
  · rfl

theorem processQueueStep_active_le (st : PrefetchState)
    (h : st.activeRequests.length ≤ st.maxConcurrent) :
    (processQueueStep st).activeRequests.length ≤ st.maxConcurrent := by
  unfold processQueueStep
  split
  case isTrue hlt =>
    split
    · exact h
    · exact le_trans (setAdd_length_le _ _) hlt
  case isFalse _ => exact h

theorem prefetch_maxConcurrent (cacheSt : CacheState) (now : Nat) (url : String)
    (priority : Priority) (st : PrefetchState) :
    ((prefetch cacheSt now url priority st).2).maxConcurrent = st.maxConcurrent := by
  unfold prefetch
  split
  · rfl
  split
  · rfl
  split
  · rfl
  · exact processQueueStep_maxConcurrent _

theorem prefetch_active_le (cacheSt : CacheState) (now : Nat) (url : String)
    (priority : Priority) (st : PrefetchState)
    (h : st.activeRequests.length ≤ st.maxConcurrent) :
    ((prefetch cacheSt now url priority st).2).activeRequests.length ≤ st.maxConcurrent := by
  unfold prefetch
  split
  · exact h
  split
  · exact h
  split
  · exact h
  · exact processQueueStep_active_le _ h

theorem settlePrefetch_maxConcurrent (url : String) (st : PrefetchState) :
    (settlePrefetch url st).maxConcurrent = st.maxConcurrent := by
  unfold settlePrefetch
  exact processQueueStep_maxConcurrent _

theorem settlePrefetch_active_le (url : String) (st : PrefetchState)
    (h : st.activeRequests.length ≤ st.maxConcurrent) :
    (settlePrefetch url st).activeRequests.length ≤ st.maxConcurrent := by
  unfold settlePrefetch
  refine processQueueStep_active_le _ (le_trans ?_ h)
  exact (List.erase_sublist _ _).length_le

theorem schedStep_maxConcurrent (ev : SchedEv) (st : PrefetchState) :
    (schedStep ev st).maxConcurrent = st.maxConcurrent := by
  cases ev with
  | enq cacheSt now url priority => exact prefetch_maxConcurrent _ _ _ _ _
  | pump => exact processQueueStep_maxConcurrent _
  | settle url => exact settlePrefetch_maxConcurrent _ _

theorem schedStep_active_le (ev : SchedEv) (st : PrefetchState)
    (h : st.activeRequests.length ≤ st.maxConcurrent) :
    (schedStep ev st).activeRequests.length ≤ (schedStep ev st).maxConcurrent := by
  rw [schedStep_maxConcurrent]
  cases ev with
  | enq cacheSt now url priority => exact prefetch_active_le _ _ _ _ _ h
  | pump => exact processQueueStep_active_le _ h
  | settle url => exact settlePrefetch_active_le _ _ h

theorem runSched_maxConcurrent (evs : List SchedEv) :
    ∀ st : PrefetchState, (runSched evs st).maxConcurrent = st.maxConcurrent := by
  induction evs with
  | nil => intro st; rfl
  | cons e evs ih =>
    intro st
    show (runSched evs (schedStep e st)).maxConcurrent = st.maxConcurrent
    rw [ih, schedStep_maxConcurrent]

theorem runSched_active_le (evs : List SchedEv) :
    ∀ st : PrefetchState, st.activeRequests.length ≤ st.maxConcurrent →
      (runSched evs st).activeRequests.length ≤ (runSched evs st).maxConcurrent := by
  induction evs with
  | nil => intro st h; exact h
  | cons e evs ih =>
    intro st h
    exact ih (schedStep e st) (schedStep_active_le e st h)

/-- C9 (confirmed).  The number of in-flight prefetch tasks never exceeds
the configured concurrency limit: starting from a freshly constructed
`PrefetchManager`, after any interleaving of enqueue, queue-resumption and
settlement events the length of `activeRequests` is at most
`maxConcurrent`.  Every addition to `activeRequests` happens in the
synchronous prefix of `executePrefetch`, immediately after the
`activeRequests.size < maxConcurrent` guard of `processQueue`, with no
suspension point in between. -/
theorem active_requests_bounded_by_maxConcurrent (cfg : RouterConfig) (isMobile : Bool)
    (evs : List SchedEv) :
    (runSched evs (mkPrefetchManager cfg isMobile)).activeRequests.length
      ≤ (mkPrefetchManager cfg isMobile).maxConcurrent := by
  have h0 : (mkPrefetchManager cfg isMobile).activeRequests.length
      ≤ (mkPrefetchManager cfg isMobile).maxConcurrent :=
    Nat.zero_le _
  have h := runSched_active_le evs _ h0
  rwa [runSched_maxConcurrent] at h

/-! ## C1: enqueue deduplication -/

/-- C1 (amended).  `PrefetchManager.prefetch` returns `false` and changes
nothing when prefetching is disabled, when the key is already an active
request, or when the key is already cached.  (The source checks only
`activeRequests` and the cache — a key that is merely queued is not
deduplicated; see `prefetch_requeues_queued_key`.) -/
theorem prefetch_noop_only_for_cached_or_active :
    ∀ (cacheSt : CacheState) (now : Nat) (url : String) (priority : Priority)
      (st : PrefetchState),
      (st.isEnabled = false ∨ st.activeRequests.contains url = true ∨
        CacheManager.has url cacheSt = true) →
      prefetch cacheSt now url priority st = (false, st) := by
  intro cacheSt now url priority st h
  unfold prefetch
  rcases h with h | h | h
  · simp [h]
  · have hmem : url ∈ st.activeRequests := by simpa using h
    simp [hmem]
  · simp [h]

/-- Witness for `prefetch_noop_only_for_cached_or_active`: `/p` is active
in `schedAfterPQ`, so a second `prefetch("/p")` is refused. -/
theorem prefetch_noop_only_for_cached_or_active_witness :
    prefetch initCacheState 5 ("/p") Priority.low schedAfterPQ = (false, schedAfterPQ) :=
  prefetch_noop_only_for_cached_or_active initCacheState 5 ("/p") Priority.low schedAfterPQ
    (Or.inr (Or.inl (by decide)))

/-- C1 (counterexample).  A key that is queued but neither active nor
cached is NOT deduplicated: with both slots busy and `/k` already queued,
a second `prefetch("/k")` returns `true` and inserts a second task for the
same key — the claim requires `false` and no insertion. -/
theorem prefetch_requeues_queued_key :
    schedWithKQueued.queue.map (fun r => r.url) = [("/k")] ∧
    schedWithKQueued.activeRequests.contains ("/k") = false ∧
    CacheManager.has ("/k") initCacheState = false ∧
    (prefetch initCacheState 3 ("/k") Priority.low schedWithKQueued).1 = true ∧
    ((prefetch initCacheState 3 ("/k") Priority.low schedWithKQueued).2.queue.map
        (fun r => r.url)) = [("/k"), ("/k")] := by
  decide

/-! ## C2 and C3: eviction and the size/count budget -/

/-- C2 (code bug).  With `maxEntries = 2`, no pinned pages, and `/a`, `/b`,
`/c` inserted in that order within one millisecond, the store ends holding
all three entries: `checkLimits` initialises its oldest-entry scan with
`oldestTimestamp = Date.now()` and compares with strict `<`, so an entry
whose timestamp equals the current clock reading can never be selected for
eviction, and the loop stops as if every entry were pinned.  The claim
(and §8 of the spec) requires the final store to be exactly `{B, C}`. -/
theorem eviction_skips_same_instant_entries :
    twoEntryConfig.cache.maxEntries = 2 ∧
    twoEntryConfig.cache.alwaysCache = [] ∧
    sameInstantStore.cache.map (fun p => p.1) = [("/a"), ("/b"), ("/c")] := by
  decide

/-- C3 (code bug).  The same run violates the budget invariant: after the
third `set` returns, the store holds 3 entries against `maxEntries = 2`
although no entry is pinned — the soft-overflow exception of the claim
does not apply. -/
theorem cache_budget_invariant_violated_same_instant :
    sameInstantStore.stats.totalEntries = 3 ∧
    twoEntryConfig.cache.maxEntries < sameInstantStore.stats.totalEntries ∧
    sameInstantStore.cache.all
        (fun p => !(twoEntryConfig.cache.alwaysCache.contains p.1)) = true := by
  decide

/-! ## C4: priority order of the queue -/

/-- C4 (code bug).  `addToQueue` splices a new request in before the first
queued request of STRICTLY HIGHER priority (the comparison in the source
is inverted), so a `high` request enqueued after a `low` request lands
behind it; when a slot frees up, the scheduling loop then starts the `low`
task while the `high` task is still queued — the claim requires every High
task to precede every Low task and a Low task never to start while a High
task is queued. -/
theorem addToQueue_reverses_priority_order :
    schedLowThenHigh.queue.map (fun r => (r.url, r.priority))
        = [(("/y"), Priority.low), (("/x"), Priority.high)] ∧
    getPriorityValue Priority.high < getPriorityValue Priority.low ∧
    schedAfterPSettles.activeRequests = [("/q"), ("/y")] ∧
    schedAfterPSettles.queue.map (fun r => (r.url, r.priority))
        = [(("/x"), Priority.high)] := by
  decide

/-! ## C5: cancellation of an active task -/

/-- C5 (code bug).  `cancelPrefetch` on a key whose task is active (and
hence no longer in the queue) returns `false` and aborts nothing: the
active branch searches `this.queue` for the request's controller, but the
request was shifted off the queue when it started, so the search fails —
the claim requires `true` with the cancellation token marked. -/
theorem cancelPrefetch_active_returns_false :
    schedXActive.activeRequests = [("/x")] ∧
    schedXActive.queue = [] ∧
    cancelPrefetch ("/x") schedXActive = (false, schedXActive) := by
  decide

/-! ## C6: redundant-write detection in `set` -/

/-- C6 (amended).  `CacheManager.set` returns `false` and leaves the store
unchanged whenever an entry exists and every validator actually supplied
(truthy) in the new headers matches the stored one — in particular also
when the new headers supply no validators at all, even if the stored
validators differ; when a supplied `etag` differs it replaces the entry
and returns `true`; and the etag-v1/etag-v1 scenario holds with the first
payload retained. -/
theorem set_validator_noop_amended :
    (∀ (cfg : RouterConfig) (now : Nat) (url html : String)
        (headers : List (String × String)) (st : CacheState) (existing : CacheEntry),
      cfg.cache.enabled = true →
      jsMapGet url st.cache = some existing →
      (jsTruthy (jsMapGet ("last-modified") headers) = true →
        existing.lastModified = jsMapGet ("last-modified") headers) →
      (jsTruthy (jsMapGet ("etag") headers) = true →
        existing.etag = jsMapGet ("etag") headers) →
      CacheManager.set cfg now url html headers st = (false, st)) ∧
    (∀ (cfg : RouterConfig) (now : Nat) (url html : String)
        (headers : List (String × String)) (st : CacheState) (existing : CacheEntry),
      cfg.cache.enabled = true →
      jsMapGet url st.cache = some existing →
      jsTruthy (jsMapGet ("etag") headers) = true →
      existing.etag ≠ jsMapGet ("etag") headers →
      (CacheManager.set cfg now url html headers st).1 = true) ∧
    (CacheManager.set defaultConfig 1 ("/k") ("p2") [(("etag"), ("v1"))] storeWithEtagV1
        = (false, storeWithEtagV1) ∧
      (jsMapGet ("/k") storeWithEtagV1.cache).map (fun e => e.html) = some ("p1")) := by
  refine ⟨?_, ?_, ?_⟩
  · intro cfg now url html headers st existing hEn hEx hLm hEt
    have c1 : (jsTruthy (jsMapGet ("last-modified") headers)
        && !(existing.lastModified == jsMapGet ("last-modified") headers)) = false := by
      by_cases h : jsTruthy (jsMapGet ("last-modified") headers) = true
      · simp [h, hLm h]
      · rw [Bool.not_eq_true] at h
        simp [h]
    have c2 : (jsTruthy (jsMapGet ("etag") headers)
        && !(existing.etag == jsMapGet ("etag") headers)) = false := by
      by_cases h : jsTruthy (jsMapGet ("etag") headers) = true
      · simp [h, hEt h]
      · rw [Bool.not_eq_true] at h
        simp [h]
    have hS : shouldUpdateEntry url (jsMapGet ("last-modified") headers)
        (jsMapGet ("etag") headers) st = false := by
      unfold shouldUpdateEntry
      rw [hEx]
      simp [c1, c2]
    simp [CacheManager.set, hEn, hS]
  · intro cfg now url html headers st existing hEn hEx hTru hNe
    have c2 : (jsTruthy (jsMapGet ("etag") headers)
        && !(existing.etag == jsMapGet ("etag") headers)) = true := by
      have hb : (existing.etag == jsMapGet ("etag") headers) = false := by
        rw [beq_eq_false_iff_ne]
        exact hNe
      simp [hTru, hb]
    have hS : shouldUpdateEntry url (jsMapGet ("last-modified") headers)
        (jsMapGet ("etag") headers) st = true := by
      unfold shouldUpdateEntry
      rw [hEx]
      by_cases c1 : (jsTruthy (jsMapGet ("last-modified") headers)
          && !(existing.lastModified == jsMapGet ("last-modified") headers)) = true
      · simp [c1]
      · rw [Bool.not_eq_true] at c1
        simp [c1, c2]
    simp [CacheManager.set, hEn, hS]
  · exact ⟨by decide, by decide⟩

/-- Witness for `set_validator_noop_amended`: over `storeWithEtagV1`, a put
supplying the matching `etag: v1` is refused, and a put supplying a
differing `etag: v2` is accepted. -/
theorem set_validator_noop_amended_witness :
    CacheManager.set defaultConfig 1 ("/k") ("zz") [(("etag"), ("v1"))] storeWithEtagV1
        = (false, storeWithEtagV1) ∧
    (CacheManager.set defaultConfig 1 ("/k") ("zz") [(("etag"), ("v2"))] storeWithEtagV1).1
        = true := by
  constructor
  · exact set_validator_noop_amended.1 defaultConfig 1 ("/k") ("zz") _ storeWithEtagV1
      entryEtagV1 (by decide) (by decide)
      (fun h => absurd h (by decide)) (fun _ => by decide)
  · exact set_validator_noop_amended.2.1 defaultConfig 1 ("/k") ("zz") _ storeWithEtagV1
      entryEtagV1 (by decide) (by decide) (by decide) (by decide)

/-- C6 (counterexample).  The claim's "otherwise" direction fails: the
stored entry for `/k` carries `etag: v1` while the new headers carry no
validators at all — the validators are not identical, yet `set` returns
`false` and keeps the old payload, where the claim requires a replacement
returning `true`. -/
theorem set_missing_validators_returns_false :
    (jsMapGet ("/k") storeWithEtagV1.cache).map (fun e => e.etag) = some (some ("v1")) ∧
    jsMapGet ("etag") ([] : List (String × String)) = none ∧
    CacheManager.set defaultConfig 1 ("/k") ("p2") [] storeWithEtagV1
        = (false, storeWithEtagV1) := by
  decide

/-! ## C7: TTL expiry -/

/-- C7 (amended).  Expired entries are NOT removed on touch: whenever the
key is present, `CacheManager.get` returns the entry regardless of its age
(the source reads no clock in `get`).  Stale non-pinned entries are
removed only by `cleanupExpired` — which the source runs only when the
cache is loaded from storage at construction — and that sweep removes
exactly the entries that are not in `alwaysCache` and are older than the
TTL, so pinned entries indeed never expire. -/
theorem ttl_cleanup_only_amended :
    (∀ (cfg : RouterConfig) (st : CacheState) (url : String) (entry : CacheEntry),
      cfg.cache.enabled = true → jsMapGet url st.cache = some entry →
      (CacheManager.get cfg st url).1 = some entry) ∧
    (∀ (cfg : RouterConfig) (now : Nat) (st : CacheState) (p : String × CacheEntry),
      p ∈ (cleanupExpired cfg now st).cache ↔
        p ∈ st.cache ∧ (cfg.cache.alwaysCache.contains p.1 = true ∨
          ¬(now - p.2.timestamp > cfg.cache.ttlHours * 60 * 60 * 1000))) := by
  constructor
  · intro cfg st url entry hEn hEx
    simp [CacheManager.get, hEn, hEx]
  · intro cfg now st p
    simp [cleanupExpired, List.mem_filter]

/-- Witness for `ttl_cleanup_only_amended`: `get` still returns the entry
`/old` inserted at time 0, and the sweep at time 90000000 (past the 24h
TTL) removes it. -/
theorem ttl_cleanup_only_amended_witness :
    (CacheManager.get defaultConfig storeWithOldEntry ("/old")).1 = some oldEntry ∧
    ((("/old"), oldEntry) ∈ (cleanupExpired defaultConfig 90000000 storeWithOldEntry).cache
      → False) := by
  constructor
  · exact ttl_cleanup_only_amended.1 defaultConfig storeWithOldEntry ("/old") oldEntry
      (by decide) (by decide)
  · intro hm
    exact absurd
      ((ttl_cleanup_only_amended.2 defaultConfig 90000000 storeWithOldEntry
        (("/old"), oldEntry)).mp hm) (by decide)

/-- C7 (counterexample).  The entry `/old` (inserted at time 0, unpinned)
is stale at time 90000000 — `cleanupExpired` would drop it — yet a `get`
of that key still returns it, where the claim requires the lazy removal on
touch to make `get` miss. -/
theorem get_returns_expired_entry :
    defaultConfig.cache.alwaysCache.contains ("/old") = false ∧
    storeWithOldEntry.cache.map (fun p => p.2.timestamp) = [0] ∧
    90000000 - 0 > defaultConfig.cache.ttlHours * 60 * 60 * 1000 ∧
    ((CacheManager.get defaultConfig storeWithOldEntry ("/old")).1.map (fun e => e.html))
        = some ("h") ∧
    (cleanupExpired defaultConfig 90000000 storeWithOldEntry).cache = [] := by
  decide

/-! ## C10: construction-time validation -/

/-- C10 (amended).  No misconfiguration is detected anywhere: the
configuration merge accepts every supplied section verbatim (the source
has no validation and no throw statement), and the engine keeps operating
under `maxEntries = 0` — a `set` on the fresh store still succeeds.
Operations of the engine are total and handle their failures locally. -/
theorem no_construction_validation_amended :
    (∀ (u : RouterConfigUpdate) (cur : RouterConfig) (c : CacheConfig),
      u.cache = some c → (updateConfig u cur).cache = c) ∧
    (∀ (u : RouterConfigUpdate) (cur : RouterConfig),
      u.cache = none → (updateConfig u cur).cache = cur.cache) ∧
    (∀ (now : Nat) (url html : String) (headers : List (String × String)),
      (CacheManager.set zeroEntriesConfig now url html headers initCacheState).1 = true) := by
  refine ⟨?_, ?_, ?_⟩
  · intro u cur c h
    simp [updateConfig, h]
  · intro u cur h
    simp [updateConfig, h]
  · intro now url html headers
    have hEn : zeroEntriesConfig.cache.enabled = true := by decide
    have hS : shouldUpdateEntry url (jsMapGet ("last-modified") headers)
        (jsMapGet ("etag") headers) initCacheState = true := by
      unfold shouldUpdateEntry
      simp [initCacheState, jsMapGet]
    simp [CacheManager.set, hEn, hS]

/-- Witness for `no_construction_validation_amended`. -/
theorem no_construction_validation_amended_witness :
    (updateConfig { prefetch := none, cache := some badCacheConfig } defaultConfig).cache
        = badCacheConfig ∧
    (updateConfig { prefetch := none, cache := none } defaultConfig).cache
        = defaultConfig.cache ∧
    (CacheManager.set zeroEntriesConfig 5 ("/b") ("x") [] initCacheState).1 = true :=
  ⟨no_construction_validation_amended.1 _ _ _ rfl,
    no_construction_validation_amended.2.1 _ _ rfl,
    no_construction_validation_amended.2.2 5 ("/b") ("x") []⟩

/-- C10 (counterexample).  Configuring `maxEntries = 0` (a misconfiguration
per the claim) does not fail fast: `updateConfig` accepts it and a
subsequent `set` succeeds, storing an entry the budget does not allow —
nothing throws at construction or later. -/
theorem updateConfig_accepts_nonpositive_maxEntries :
    zeroEntriesConfig.cache.maxEntries = 0 ∧
    (CacheManager.set zeroEntriesConfig 5 ("/a") ("x") [] initCacheState).1 = true ∧
    (CacheManager.set zeroEntriesConfig 5 ("/a") ("x") [] initCacheState).2.stats.totalEntries
        = 1 := by
  decide

/-! ## Stable-sort lemmas -/

theorem mem_insertStable (le : α → α → Bool) (x : α) (l : List α) (a : α) :
    a ∈ insertStable le x l ↔ a = x ∨ a ∈ l := by
  induction l with
  | nil => simp [insertStable]
  | cons y ys ih =>
    unfold insertStable
    split
    · simp only [List.mem_cons, ih]
      tauto
    · simp only [List.mem_cons]

theorem pairwise_insertStable (le : α → α → Bool)
    (htot : ∀ a b, le a b = true ∨ le b a = true)
    (htrans : ∀ a b c, le a b = true → le b c = true → le a c = true)
    (x : α) (l : List α) (h : l.Pairwise (fun a b => le a b = true)) :
    (insertStable le x l).Pairwise (fun a b => le a b = true) := by
  induction l with
  | nil => simp [insertStable]
  | cons y ys ih =>
    rcases List.pairwise_cons.mp h with ⟨hy, hys⟩
    unfold insertStable
    split
    case isTrue hle =>
      refine List.pairwise_cons.mpr ⟨?_, ih hys⟩
      intro z hz
      rcases (mem_insertStable le x ys z).mp hz with rfl | hz2
      · exact hle
      · exact hy z hz2
    case isFalse hnle =>
      have hxy : le x y = true := by
        rcases htot x y with h1 | h1
        · exact h1
        · exact absurd h1 hnle
      refine List.pairwise_cons.mpr ⟨?_, h⟩
      intro z hz
      rcases List.mem_cons.mp hz with rfl | hz2
      · exact hxy
      · exact htrans x y z hxy (hy z hz2)

theorem pairwise_stableSortGo (le : α → α → Bool)
    (htot : ∀ a b, le a b = true ∨ le b a = true)
    (htrans : ∀ a b c, le a b = true → le b c = true → le a c = true) :
    ∀ (l acc : List α), acc.Pairwise (fun a b => le a b = true) →
      (stableSortGo le acc l).Pairwise (fun a b => le a b = true) := by
  intro l
  induction l with
  | nil => intro acc h; exact h
  | cons x xs ih =>
    intro acc h
    exact ih _ (pairwise_insertStable le htot htrans x acc h)

theorem pairwise_stableSortBy (le : α → α → Bool)
    (htot : ∀ a b, le a b = true ∨ le b a = true)
    (htrans : ∀ a b c, le a b = true → le b c = true → le a c = true)
    (l : List α) :
    (stableSortBy le l).Pairwise (fun a b => le a b = true) :=
  pairwise_stableSortGo le htot htrans l [] List.Pairwise.nil

/-! ## C8: the predictor -/

set_option maxRecDepth 100000 in
unseal Rat.mul Rat.add Rat.sub Rat.inv in
/-- C8 (amended).  `getLikelyNextPages` returns `[]` when no recorded edge
leaves the queried page; its output is sorted by non-increasing score (the
score being `count * (1 + max 0 (1 - age / recencyWindow))`); and the
equal-recency scenario holds: after `/a → /b` three times and `/a → /c`
once, it returns `/b` (score 6) before `/c` (score 2).  Ties, however, are
broken by the order of the STORED history list, which coincides with
original insertion order only until the history cap first reorders the
list (see `predict_tiebreak_after_cap_trim`). -/
theorem predict_score_sort_amended :
    (∀ (now : Nat) (currentUrl : String) (history : List NavigationPattern),
      (∀ p ∈ history, p.fromUrl ≠ currentUrl) →
      getLikelyNextPages now currentUrl history = []) ∧
    (∀ (now : Nat) (currentUrl : String) (history : List NavigationPattern),
      (getLikelyNextPages now currentUrl history).Pairwise (fun a b => b.2 ≤ a.2)) ∧
    getLikelyNextPages 100 ("/a") historyBBBBC = [(("/b"), 6), (("/c"), 2)] := by
  refine ⟨?_, ?_, ?_⟩
  · intro now currentUrl history h
    have hf : history.filter (fun p => p.fromUrl == currentUrl) = [] := by
      rw [List.filter_eq_nil_iff]
      intro p hp
      simp [h p hp]
    simp [getLikelyNextPages, hf]
  · intro now currentUrl history
    by_cases hl : (history.filter (fun p => p.fromUrl == currentUrl)).length = 0
    · simp [getLikelyNextPages, hl]
    · simp only [getLikelyNextPages, hl, if_false]
      refine (pairwise_stableSortBy (fun (a b : String × Rat) => decide (b.2 ≤ a.2))
        ?_ ?_ _).imp ?_
      · intro a b
        rcases le_total b.2 a.2 with h1 | h1
        · exact Or.inl (decide_eq_true h1)
        · exact Or.inr (decide_eq_true h1)
      · intro a b c h1 h2
        exact decide_eq_true (le_trans (of_decide_eq_true h2) (of_decide_eq_true h1))
      · intro a b h1
        exact of_decide_eq_true h1
  · decide

/-- Witness for `predict_score_sort_amended`: no recorded edge leaves
`/z`, so the prediction is empty. -/
theorem predict_score_sort_amended_witness :
    getLikelyNextPages 100 ("/z") historyBBBBC = [] :=
  predict_score_sort_amended.1 100 ("/z") historyBBBBC (by decide)

set_option maxRecDepth 100000 in
unseal Rat.mul Rat.add Rat.sub Rat.inv in
/-- C8 (counterexample).  Tie-breaking does not follow original insertion
order once the history cap has been exceeded: `/a → /b` was recorded
(time 1) before `/a → /c` (time 2); after 99 filler edges push the history
over `maxHistorySize`, the trim re-sorts the whole list by descending
`lastSeenAt`.  At a query time where both edges score exactly 1 (a tie),
the prediction returns `/c` before `/b` — while the same two records
without the cap pressure yield `/b` before `/c`, the order the claim
requires. -/
theorem predict_tiebreak_after_cap_trim :
    ((historyCapTrimmed.filter (fun p => p.fromUrl == ("/a"))).map
        (fun p => (p.toUrl, p.count, p.timestamp))) = [(("/c"), 1, 2), (("/b"), 1, 1)] ∧
    getLikelyNextPages (2 + recencyWindowMs) ("/a") historyCapTrimmed
        = [(("/c"), (1 : Rat)), (("/b"), (1 : Rat))] ∧
    getLikelyNextPages (2 + recencyWindowMs) ("/a") historyBThenC
        = [(("/b"), (1 : Rat)), (("/c"), (1 : Rat))] := by
  decide

end SeamlessRouter
